import Mathlib

/-
A Lean model of the `mux` package: a thin composition layer over Go's
net/http.  Handlers are modelled as functions from a request and the
current response state to the new response state; Go `panic` during
configuration is modelled with `Option` (`none` = panic).
-/

namespace mux

/-- An HTTP request: the fields the package reads (`r.Method`, `r.URL.Path`). -/
structure Request where
  method : String
  path : String
deriving Repr, DecidableEq

/-- The response-writer state: status code (implicitly 200 until written),
accumulated headers, and the body written so far. -/
structure Response where
  status : Nat
  headers : List (String × String)
  body : String
deriving Repr, DecidableEq

/-- The zero response-writer: nothing written yet, implicit status 200. -/
def Response.init : Response := ⟨200, [], ""⟩

/-- `w.Header().Add(k, v)`: appends the pair to the header list. -/
def headerAdd (w : Response) (k v : String) : Response :=
  { w with headers := w.headers ++ [(k, v)] }

/-- `w.Header().Set(k, v)`: deletes existing values for `k`, then adds `v`. -/
def headerSet (w : Response) (k v : String) : Response :=
  { w with headers := w.headers.filter (fun p => p.1 != k) ++ [(k, v)] }

/-- `http.Error(w, msg, code)`: sets Content-Type and nosniff headers,
writes the status code, then writes `msg` followed by a newline. -/
def httpError (w : Response) (msg : String) (code : Nat) : Response :=
  let w1 := headerSet (headerSet w "Content-Type" "text/plain; charset=utf-8")
    "X-Content-Type-Options" "nosniff"
  { w1 with status := code, body := w1.body ++ msg ++ "\n" }

/-- A handler (`http.Handler`): consumes the request, transforms the response. -/
abbrev Handler : Type := Request → Response → Response

/-- `http.NotFound(w, r)` = `http.Error(w, "404 page not found", 404)`. -/
def notFound : Handler := fun _ w => httpError w "404 page not found" 404

/-- The method table `map[string]http.Handler`, as an association list
(keys kept unique by the registration check). -/
abbrev Table : Type := List (String × Handler)

/-- A `methodOption` as produced by `WithMethod`: it closes over one
(method, handler) pair; applying it inserts the pair, or panics (`none`)
when the method is already registered. -/
structure MethodOption where
  method : String
  handler : Handler

/-- The body of the closure returned by `WithMethod`: panic if the method
is already in the table, otherwise insert the pair. -/
def MethodOption.apply (o : MethodOption) (t : Table) : Option Table :=
  match List.lookup o.method t with
  | some _ => none
  | none => some (t ++ [(o.method, o.handler)])

/-- `WithMethod(method, h)`: panics (`none`) when the method string is
empty or the handler is nil (`none`); otherwise returns the option
closing over the pair. -/
def WithMethod (method : String) (h : Option Handler) : Option MethodOption :=
  if method.data.length = 0 then none
  else
    match h with
    | none => none
    | some hh => some ⟨method, hh⟩

/-- `WithGET(h) = WithMethod("GET", h)`. -/
def WithGET (h : Option Handler) : Option MethodOption := WithMethod "GET" h

/-- `WithPOST(h) = WithMethod("POST", h)`. -/
def WithPOST (h : Option Handler) : Option MethodOption := WithMethod "POST" h

/-- `WithOPTIONS(h) = WithMethod("OPTIONS", h)`. -/
def WithOPTIONS (h : Option Handler) : Option MethodOption := WithMethod "OPTIONS" h

/-- Applying each option in order to the initially empty table
(the `for _, opt := range options` loop in `Methods`). -/
def buildTable (opts : List MethodOption) : Option Table :=
  opts.foldlM (fun t o => o.apply t) ([] : Table)

/-- The auto-generated OPTIONS handler: adds `Allow` and
`Access-Control-Allow-Methods` with the pre-computed joined value,
writes nothing else. -/
def autoOptionsHandler (allowValue : String) : Handler :=
  fun _ w =>
    headerAdd (headerAdd w "Allow" allowValue) "Access-Control-Allow-Methods" allowValue

/-- The `if _, ok := methodHandlers[http.MethodOptions]; !ok` block of
`Methods`: when no OPTIONS entry exists, collect the registered methods,
join them with ", ", and register the auto handler under OPTIONS. -/
def addDefaultOptions (t : Table) : Table :=
  match List.lookup "OPTIONS" t with
  | some _ => t
  | none =>
      t ++ [("OPTIONS", autoOptionsHandler (String.intercalate ", " (t.map Prod.fst)))]

/-- The dispatch closure returned by `Methods`: look the request method up
in the table; delegate if present, else `http.NotFound`. -/
def dispatch (t : Table) : Handler :=
  fun r w =>
    match List.lookup r.method t with
    | some h => h r w
    | none => notFound r w

/-- `Methods(options...)`: build the table (panic propagates as `none`),
add the default OPTIONS handler when absent, return the dispatcher. -/
def Methods (opts : List MethodOption) : Option Handler :=
  (buildTable opts).map (fun t => dispatch (addDefaultOptions t))

/-- A trivial handler used to instantiate theorems at concrete inputs. -/
def hOK : Handler := fun _ w => w

/-- Modelled from the spec: the `Middleware` type is not under src/ (only its
uses in the router facade are); per the spec it is "a function/value that,
given a handler, produces a new handler (a decorator)". -/
abbrev Middleware : Type := Handler → Handler

/-- Modelled from the spec: `WrapMiddleware` is not under src/ (only its
callers in the router facade are); per the spec, `Wrap(middlewareSequence,
terminalHandler)` applies the sequence so that the first element is the
outermost wrapper and composition is associative with `Wrap([], H) = H`. -/
def WrapMiddleware (mws : List Middleware) (h : Handler) : Handler :=
  mws.foldr (fun m acc => m acc) h

/-- `Mux` wraps the underlying `http.ServeMux` (modelled as the list of
registrations made on it) plus the mux-level middleware. -/
structure Mux where
  registrations : List (String × Handler)
  mw : List Middleware

/-- `New(mw...)`: fresh underlying mux, the given mux-level middleware. -/
def Mux.new (mws : List Middleware) : Mux := ⟨[], mws⟩

/-- `Mux.Handle`: wrap in the call-level middleware, then in the mux-level
middleware, then register on the underlying mux. -/
def Mux.Handle (m : Mux) (pat : String) (h : Handler) (mws : List Middleware) : Mux :=
  { m with registrations := m.registrations ++ [(pat, WrapMiddleware m.mw (WrapMiddleware mws h))] }

/-- `listIsPref pre l` decides whether `pre` is a leading segment of `l`
(the model of Go `strings.HasPrefix` over rune lists). -/
def listIsPref : List Char → List Char → Bool
  | [], _ => true
  | _ :: _, [] => false
  | a :: as, b :: bs => a == b && listIsPref as bs

/-- `strings.HasPrefix(s, pre)`. -/
def goHasPref (s pre : String) : Bool := listIsPref pre.data s.data

/-- `strings.TrimPrefix(s, pre)`: drop the leading `pre` when present. -/
def goTrimPref (s pre : String) : String :=
  if goHasPref s pre then ⟨s.data.drop pre.data.length⟩ else s

/-- `strings.HasSuffix(s, suf)`. -/
def goHasSuf (s suf : String) : Bool := listIsPref suf.data.reverse s.data.reverse

/-- `strings.TrimSuffix(s, suf)`: drop the trailing `suf` when present. -/
def goTrimSuf (s suf : String) : String :=
  if goHasSuf s suf then ⟨s.data.take (s.data.length - suf.data.length)⟩ else s

/-- `http.StripPrefix(pre, h)`: identity when `pre` is empty; otherwise
forward with the trimmed path when trimming shortened it, else 404. -/
def stripPrefixFun (pre : String) (h : Handler) : Handler :=
  if pre = "" then h
  else fun r w =>
    let p := goTrimPref r.path pre
    if p.data.length < r.path.data.length then h { r with path := p } w else notFound r w

/-- `Mux.Group`: register the sub-handler under the pattern, wrapped in
`http.StripPrefix(strings.TrimSuffix(pattern, "/"), h)`. -/
def Mux.Group (m : Mux) (pat : String) (h : Handler) (mws : List Middleware) : Mux :=
  m.Handle pat (stripPrefixFun (goTrimSuf pat "/") h) mws

/-- A Go error value as this package can observe it: a plain error, the
package's `handlerError` (cause, status, client message), or an error that
wraps another (implements `Unwrap`, e.g. built by `fmt.Errorf` with `%w`). -/
inductive GoError where
  | mk (msg : String)
  | handler (err : GoError) (status : Nat) (msg : String)
  | wrapped (pre : String) (inner : GoError)
deriving Repr, DecidableEq

/-- `errors.As(err, &e)` for `e interface{ StatusMsg() (int, string) }`,
followed by `e.StatusMsg()`: the outermost error in the unwrap chain that
carries the capability yields its (status, msg); plain errors yield none.
(`handlerError` itself has no `Unwrap` method, so it matches directly.) -/
def asStatusMsg : GoError → Option (Nat × String)
  | .handler _ s m => some (s, m)
  | .wrapped _ inner => asStatusMsg inner
  | .mk _ => none

/-- One character escaped as Go's `%q` verb renders it (quote, backslash
and common control characters; other characters stand for themselves). -/
def goEscChar (c : Char) : List Char :=
  if c = '"' then ['\\', '"']
  else if c = '\\' then ['\\', '\\']
  else if c = '\n' then ['\\', 'n']
  else if c = '\t' then ['\\', 't']
  else [c]

/-- Go's `%q` verb on a string: double-quoted, characters escaped. -/
def goQuote (s : String) : String := ⟨'"' :: ((s.data.map goEscChar).flatten ++ ['"'])⟩

/-- The `Error()` string of a Go error: `handlerError.Error` formats
`"status=%d msg=%q err=%q\n"` (on an error operand, `%q` quotes its
`Error()` string); a wrapping error prepends its own text. -/
def goErrorStr : GoError → String
  | .mk m => m
  | .wrapped p inner => p ++ goErrorStr inner
  | .handler e s m =>
      "status=" ++ toString s ++ " msg=" ++ goQuote m ++ " err=" ++ goQuote (goErrorStr e) ++ "\n"

/-- `Error(err, status, msg)`: builds the `handlerError` carrying the
cause, the status and the client message. -/
def Error (err : GoError) (status : Nat) (msg : String) : GoError :=
  GoError.handler err status msg

/-- Modelled from the spec (for comparison with `Error`, the constructor in
the source): `NewHandlerError(cause, status, messageParts...)` "joins
messageParts with a single space to form the response message". -/
def NewHandlerError (cause : GoError) (status : Nat) (msgParts : List String) : GoError :=
  GoError.handler cause status (String.intercalate " " msgParts)

/-- An error-returning handler (`errHandlerFunc`): may write to the
response and may return an error. -/
abbrev ErrHandler : Type := Request → Response → Response × Option GoError

/-- `ErrorHandler`: whether a logging writer is configured (nil or not)
and the response-writing function. -/
structure ErrorHandler where
  hasWriter : Bool
  errFunc : Response → String → Nat → Response

/-- `http.StatusText`, at the one code this package passes to it. -/
def statusText (code : Nat) : String :=
  if code = 500 then "Internal Server Error" else ""

/-- `ErrorHandler.Err(h)`: run `h`; on nil error do nothing more; otherwise
respond via `errFunc` with the extracted (status, msg) or the generic 500
pair, then write the error's string representation to the writer if one is
configured.  The second component is what reaches the logging sink. -/
def ErrorHandler.Err (eh : ErrorHandler) (h : ErrHandler) :
    Request → Response → Response × Option String :=
  fun r w =>
    match h r w with
    | (w1, none) => (w1, none)
    | (w1, some e) =>
        let w2 := match asStatusMsg e with
          | some sm => eh.errFunc w1 sm.2 sm.1
          | none => eh.errFunc w1 (statusText 500) 500
        (w2, if eh.hasWriter then some (goErrorStr e) else none)

/-- A handler that writes nothing and returns the given error. -/
def returning (e : GoError) : ErrHandler := fun _ w => (w, some e)

/-- `sub` occurs contiguously inside `s`. -/
def strContainsStr (s sub : String) : Prop :=
  ∃ k t, s.data = k ++ sub.data ++ t

/-- A middleware that records its entry by appending `name` to the body
before calling the inner handler (used to observe invocation order). -/
def noteMW (name : String) : Middleware :=
  fun next => fun r w => next r { w with body := w.body ++ name }

/-- A terminal handler that records its invocation by appending `name`. -/
def noteH (name : String) : Handler :=
  fun _ w => { w with body := w.body ++ name }

/-- Lookup misses exactly when no key of the table equals the query
(string keys compare by exact, case-sensitive equality). -/
theorem lookupNoneIff {β : Type} (t : List (String × β)) (k : String) :
    List.lookup k t = none ↔ ∀ p ∈ t, p.1 ≠ k := by
  rw [List.lookup_eq_none_iff]
  constructor
  · intro h p hp
    have hb := h p hp
    rw [bne_iff_ne] at hb
    exact fun he => hb he.symm
  · intro h p hp
    rw [bne_iff_ne]
    exact fun he => h p hp he.symm

/-- A successful lookup returns a pair present in the table. -/
theorem lookup_mem {β : Type} (t : List (String × β)) (k : String) (v : β)
    (h : List.lookup k t = some v) : (k, v) ∈ t := by
  rcases List.lookup_eq_some_iff.mp h with ⟨l1, l2, rfl, -⟩
  simp

/-- Appending a binding for a key the table misses makes lookup find it. -/
theorem lookup_append_single {β : Type} (t : List (String × β)) (k : String) (v : β)
    (h : List.lookup k t = none) : List.lookup k (t ++ [(k, v)]) = some v := by
  rw [List.lookup_append, h]
  simp

/-- A binding present in the table is still found after appending. -/
theorem lookup_append_left {β : Type} (t l : List (String × β)) (k : String) (v : β)
    (h : List.lookup k t = some v) : List.lookup k (t ++ l) = some v := by
  rw [List.lookup_append, h]
  rfl

/-- When the option fold succeeds, the resulting table is the accumulator
followed by exactly the (method, handler) pairs of the options, in order. -/
theorem buildTable_from (opts : List MethodOption) :
    ∀ (acc t : Table),
      List.foldlM (fun t o => MethodOption.apply o t) acc opts = some t →
      t = acc ++ opts.map (fun o => (o.method, o.handler)) := by
  induction opts with
  | nil =>
      intro acc t h
      rw [List.foldlM_nil] at h
      cases h
      simp
  | cons o os ih =>
      intro acc t h
      rw [List.foldlM_cons] at h
      cases happ : MethodOption.apply o acc with
      | none => rw [happ] at h; simp at h
      | some acc2 =>
          rw [happ] at h
          have h2 := ih acc2 t h
          unfold MethodOption.apply at happ
          cases hl : List.lookup o.method acc with
          | some _ => rw [hl] at happ; simp at happ
          | none =>
              rw [hl] at happ
              simp at happ
              subst happ
              simp [h2]

/-- `buildTable` on a successful run produces exactly the registered pairs. -/
theorem buildTable_eq (opts : List MethodOption) (t : Table)
    (h : buildTable opts = some t) :
    t = opts.map (fun o => (o.method, o.handler)) := by
  have := buildTable_from opts [] t h
  simpa using this

/-- A string is empty exactly when its character list is. -/
theorem str_eq_empty_iff (s : String) : s = "" ↔ s.data = [] := by
  constructor
  · intro h
    rw [h]
  · intro h
    cases s with
    | mk l =>
        have hl : l = [] := h
        rw [hl]

/-- Claim C4: the handler returned by `Methods` looks the request method up
by exact, case-sensitive string equality; a hit delegates entirely to the
registered sub-handler, a miss yields the 404 "not found" response and
never a 405; a miss happens exactly when no table key equals the method. -/
theorem c4_dispatch_exact_lookup (t : Table) (r : Request) (w : Response) :
    (∀ h, List.lookup r.method t = some h → dispatch t r w = h r w)
    ∧ (List.lookup r.method t = none →
        dispatch t r w = httpError w "404 page not found" 404
        ∧ (dispatch t r w).status = 404 ∧ (dispatch t r w).status ≠ 405)
    ∧ (List.lookup r.method t = none ↔ ∀ p ∈ t, p.1 ≠ r.method) := by
  refine ⟨?_, ?_, lookupNoneIff t r.method⟩
  · intro h hl
    simp [dispatch, hl]
  · intro hl
    refine ⟨by simp [dispatch, hl, notFound], ?_, ?_⟩
    · simp [dispatch, hl, notFound, httpError]
    · simp [dispatch, hl, notFound, httpError]

/-- Witness for C4: a dispatcher with only GET registered answers a DELETE
request with the 404 response (and status 404, not 405). -/
theorem c4_witness :
    dispatch [("GET", hOK)] ⟨"DELETE", "/"⟩ Response.init
        = httpError Response.init "404 page not found" 404
    ∧ (dispatch [("GET", hOK)] ⟨"DELETE", "/"⟩ Response.init).status = 404 := by
  have h := (c4_dispatch_exact_lookup [("GET", hOK)] ⟨"DELETE", "/"⟩ Response.init).2.1 rfl
  exact ⟨h.1, h.2.1⟩

/-- Claim C5: `WithMethod` panics immediately iff the method is empty or
the handler nil; the returned option panics when applied to a table that
already has the method, and otherwise extends the table by exactly the
(method, handler) pair. -/
theorem c5_withmethod_config_errors :
    (∀ (method : String) (h : Option Handler),
        WithMethod method h = none ↔ (method = "" ∨ h = none))
    ∧ (∀ (method : String) (hh : Handler) (o : MethodOption),
        WithMethod method (some hh) = some o →
          o = ⟨method, hh⟩
          ∧ (∀ t : Table, (List.lookup method t).isSome → o.apply t = none)
          ∧ (∀ t : Table, List.lookup method t = none →
              o.apply t = some (t ++ [(method, hh)]))) := by
  constructor
  · intro method h
    unfold WithMethod
    by_cases hlen : method.data.length = 0
    · simp [hlen, (str_eq_empty_iff method).mpr (List.length_eq_zero.mp hlen)]
    · have hne : method ≠ "" := fun he => hlen (by rw [(str_eq_empty_iff method).mp he]; rfl)
      have hlen2 : ¬ method.length = 0 := hlen
      cases h with
      | none => simp [hlen, hlen2, hne]
      | some hh => simp [hlen, hlen2, hne]
  · intro method hh o hw
    have ho : o = ⟨method, hh⟩ := by
      unfold WithMethod at hw
      by_cases hlen : method.data.length = 0
      · rw [if_pos hlen] at hw
        exact absurd hw (by simp)
      · rw [if_neg hlen] at hw
        exact (Option.some.inj hw).symm
    subst ho
    refine ⟨rfl, ?_, ?_⟩
    · intro t hsome
      unfold MethodOption.apply
      cases hl : List.lookup method t with
      | none => rw [hl] at hsome; simp at hsome
      | some _ => rfl
    · intro t hnone
      unfold MethodOption.apply
      rw [hnone]

/-- Witness for C5: the empty method and the nil handler panic at once;
the GET option panics on a table already holding GET and extends the empty
table with exactly the GET binding. -/
theorem c5_witness :
    WithMethod "" (some hOK) = none
    ∧ WithMethod "GET" (none : Option Handler) = none
    ∧ (MethodOption.mk "GET" hOK).apply [("GET", hOK)] = none
    ∧ (MethodOption.mk "GET" hOK).apply [] = some [("GET", hOK)] := by
  have h2 := c5_withmethod_config_errors.2 "GET" hOK ⟨"GET", hOK⟩ rfl
  exact ⟨(c5_withmethod_config_errors.1 "" (some hOK)).mpr (Or.inl rfl),
    (c5_withmethod_config_errors.1 "GET" none).mpr (Or.inr rfl),
    h2.2.1 [("GET", hOK)] rfl,
    h2.2.2 [] rfl⟩

/-- Claim C3: every successful `Methods` construction carries an OPTIONS
entry — the user-supplied one or the auto-generated one — and an OPTIONS
request is always delegated to it, never reaching the 404 branch. -/
theorem c3_options_invariant (opts : List MethodOption) (d : Handler)
    (hM : Methods opts = some d) :
    ∃ t h, buildTable opts = some t
      ∧ List.lookup "OPTIONS" (addDefaultOptions t) = some h
      ∧ (∀ p w, d ⟨"OPTIONS", p⟩ w = h ⟨"OPTIONS", p⟩ w)
      ∧ ((∃ o, o ∈ opts ∧ o.method = "OPTIONS" ∧ h = o.handler)
          ∨ h = autoOptionsHandler (String.intercalate ", " (t.map Prod.fst))) := by
  unfold Methods at hM
  cases hbt : buildTable opts with
  | none => rw [hbt] at hM; simp at hM
  | some t =>
      rw [hbt] at hM
      simp only [Option.map_some'] at hM
      have hd : d = dispatch (addDefaultOptions t) := (Option.some.inj hM).symm
      cases hl : List.lookup "OPTIONS" t with
      | some h0 =>
          have hfind : List.lookup "OPTIONS" (addDefaultOptions t) = some h0 := by
            unfold addDefaultOptions
            rw [hl]
            exact hl
          refine ⟨t, h0, rfl, hfind, ?_, ?_⟩
          · intro p w
            simp [hd, dispatch, hfind]
          · left
            have hmem : ("OPTIONS", h0) ∈ t := lookup_mem t "OPTIONS" h0 hl
            rw [buildTable_eq opts t hbt] at hmem
            rcases List.mem_map.mp hmem with ⟨o, ho, heq⟩
            exact ⟨o, ho, congrArg Prod.fst heq, (congrArg Prod.snd heq).symm⟩
      | none =>
          have hfind : List.lookup "OPTIONS" (addDefaultOptions t)
              = some (autoOptionsHandler (String.intercalate ", " (t.map Prod.fst))) := by
            unfold addDefaultOptions
            rw [hl]
            exact lookup_append_single t "OPTIONS" _ hl
          refine ⟨t, autoOptionsHandler (String.intercalate ", " (t.map Prod.fst)), rfl, hfind, ?_, Or.inr rfl⟩
          intro p w
          simp [hd, dispatch, hfind]

/-- Witness for C3: the zero-option construction still has an OPTIONS
entry (the auto-generated one). -/
theorem c3_witness :
    ∃ t h, buildTable [] = some t
      ∧ List.lookup "OPTIONS" (addDefaultOptions t) = some h
      ∧ (∀ p w, dispatch (addDefaultOptions []) ⟨"OPTIONS", p⟩ w = h ⟨"OPTIONS", p⟩ w)
      ∧ ((∃ o, o ∈ ([] : List MethodOption) ∧ o.method = "OPTIONS" ∧ h = o.handler)
          ∨ h = autoOptionsHandler (String.intercalate ", " (t.map Prod.fst))) :=
  c3_options_invariant [] (dispatch (addDefaultOptions [])) rfl

/-- Claim C10: `Methods` with no options returns a working handler: OPTIONS
answers 200 with both headers set to the empty string and an empty body;
any other method gets a 404. -/
theorem c10_empty_methods (p m : String) (hm : m ≠ "OPTIONS") :
    ∃ d, Methods [] = some d
      ∧ d ⟨"OPTIONS", p⟩ Response.init
          = ⟨200, [("Allow", ""), ("Access-Control-Allow-Methods", "")], ""⟩
      ∧ (d ⟨m, p⟩ Response.init).status = 404 := by
  refine ⟨dispatch (addDefaultOptions []), rfl, rfl, ?_⟩
  have htab : addDefaultOptions [] = [("OPTIONS", autoOptionsHandler "")] := rfl
  have hb : (m == "OPTIONS") = false := by
    simp [hm]
  rw [htab]
  simp [dispatch, List.lookup, hb, notFound, httpError]

/-- Witness for C10: with zero options, a DELETE request yields 404. -/
theorem c10_witness :
    ∃ d, Methods [] = some d
      ∧ d ⟨"OPTIONS", "/"⟩ Response.init
          = ⟨200, [("Allow", ""), ("Access-Control-Allow-Methods", "")], ""⟩
      ∧ (d ⟨"DELETE", "/"⟩ Response.init).status = 404 :=
  c10_empty_methods "/" "DELETE" (by decide)

/-- Claim C1: when no option registers OPTIONS, the constructed handler
answers an OPTIONS request by setting both `Allow` and
`Access-Control-Allow-Methods` to the ", "-joined list of exactly the
registered methods, writing no body and leaving the status untouched
(hence at the implicit 200 for a fresh response). -/
theorem c1_auto_options_headers (opts : List MethodOption) (d : Handler)
    (hno : ∀ o ∈ opts, o.method ≠ "OPTIONS") (hM : Methods opts = some d)
    (p : String) (w : Response) :
    ∃ ks : List String,
      d ⟨"OPTIONS", p⟩ w
        = { w with headers := w.headers
              ++ [("Allow", String.intercalate ", " ks),
                  ("Access-Control-Allow-Methods", String.intercalate ", " ks)] }
      ∧ (∀ m, m ∈ ks ↔ ∃ o ∈ opts, o.method = m)
      ∧ (d ⟨"OPTIONS", p⟩ w).status = w.status
      ∧ (d ⟨"OPTIONS", p⟩ w).body = w.body := by
  unfold Methods at hM
  cases hbt : buildTable opts with
  | none => rw [hbt] at hM; simp at hM
  | some t =>
      rw [hbt] at hM
      simp only [Option.map_some'] at hM
      have hd : d = dispatch (addDefaultOptions t) := (Option.some.inj hM).symm
      have ht := buildTable_eq opts t hbt
      have hl : List.lookup "OPTIONS" t = none := by
        rw [lookupNoneIff]
        intro q hq
        rw [ht] at hq
        rcases List.mem_map.mp hq with ⟨o, ho, rfl⟩
        exact hno o ho
      have hfind : List.lookup "OPTIONS" (addDefaultOptions t)
          = some (autoOptionsHandler (String.intercalate ", " (t.map Prod.fst))) := by
        unfold addDefaultOptions
        rw [hl]
        exact lookup_append_single t "OPTIONS" _ hl
      refine ⟨t.map Prod.fst, ?_, ?_, ?_, ?_⟩
      · rw [hd]
        simp [dispatch, hfind, autoOptionsHandler, headerAdd]
      · intro m
        rw [ht]
        simp [List.mem_map]
      · rw [hd]
        simp [dispatch, hfind, autoOptionsHandler, headerAdd]
      · rw [hd]
        simp [dispatch, hfind, autoOptionsHandler, headerAdd]

/-- Witness for C1: registering GET and POST and asking OPTIONS yields both
headers with value "GET, POST", no body, status 200. -/
theorem c1_witness :
    ∃ ks : List String,
      dispatch (addDefaultOptions [("GET", hOK), ("POST", hOK)]) ⟨"OPTIONS", "/"⟩ Response.init
        = { Response.init with headers := Response.init.headers
              ++ [("Allow", String.intercalate ", " ks),
                  ("Access-Control-Allow-Methods", String.intercalate ", " ks)] }
      ∧ (∀ m, m ∈ ks ↔ ∃ o ∈ [MethodOption.mk "GET" hOK, MethodOption.mk "POST" hOK], o.method = m)
      ∧ (dispatch (addDefaultOptions [("GET", hOK), ("POST", hOK)]) ⟨"OPTIONS", "/"⟩ Response.init).status
          = Response.init.status
      ∧ (dispatch (addDefaultOptions [("GET", hOK), ("POST", hOK)]) ⟨"OPTIONS", "/"⟩ Response.init).body
          = Response.init.body :=
  c1_auto_options_headers [⟨"GET", hOK⟩, ⟨"POST", hOK⟩] _ (by decide) rfl "/" Response.init

/-- Entering a chain of note-taking middleware appends the labels to the
body in list order before the terminal handler runs. -/
theorem wrapNote (L : List String) (h : Handler) (r : Request) (w : Response) :
    WrapMiddleware (L.map noteMW) h r w
      = h r { w with body := L.foldl (fun acc s => acc ++ s) w.body } := by
  induction L generalizing w with
  | nil => rfl
  | cons x xs ih =>
      have hstep : WrapMiddleware ((x :: xs).map noteMW) h r w
          = WrapMiddleware (xs.map noteMW) h r { w with body := w.body ++ x } := rfl
      rw [hstep, ih]
      rfl

/-- Claim C2: the handler registered by `Handle` is the terminal handler
wrapped first in the call-level middleware, then in the mux-level
middleware (mux-level outermost); observing entry order with note-taking
middleware shows the run order is exactly mux-level list order, then
call-level list order, then the handler. -/
theorem c2_middleware_order (muxLabels callLabels : List String) (hLabel pat : String)
    (m0 : Mux) (h0 : Handler) (mws0 : List Middleware) (pat0 : String)
    (r : Request) (w : Response) :
    ((m0.Handle pat0 h0 mws0).registrations
        = m0.registrations ++ [(pat0, WrapMiddleware m0.mw (WrapMiddleware mws0 h0))])
    ∧ ((Mux.new (muxLabels.map noteMW)).Handle pat (noteH hLabel) (callLabels.map noteMW)).registrations
        = [(pat, WrapMiddleware (muxLabels.map noteMW)
              (WrapMiddleware (callLabels.map noteMW) (noteH hLabel)))]
    ∧ WrapMiddleware (muxLabels.map noteMW)
        (WrapMiddleware (callLabels.map noteMW) (noteH hLabel)) r w
      = { w with body := (muxLabels ++ callLabels ++ [hLabel]).foldl (fun acc s => acc ++ s) w.body } := by
  refine ⟨rfl, rfl, ?_⟩
  rw [wrapNote, wrapNote]
  show { w with body := (callLabels.foldl (fun acc s => acc ++ s)
      (muxLabels.foldl (fun acc s => acc ++ s) w.body)) ++ hLabel } = _
  simp [List.foldl_append]

/-- `pre` is a leading segment of `pre ++ b`. -/
theorem listIsPref_append (a b : List Char) : listIsPref a (a ++ b) = true := by
  induction a with
  | nil => rfl
  | cons x xs ih => simp [listIsPref, ih]

/-- Strings with equal character lists are equal. -/
theorem str_data_inj {a b : String} (h : a.data = b.data) : a = b := by
  cases a
  cases b
  exact congrArg String.mk h

/-- Claim C9: after `Group(prefix, subHandler)` (prefix ending in "/"),
the handler registered under the prefix forwards a request whose path
extends the prefix-minus-trailing-slash to the sub-handler with that base
stripped from the path. -/
theorem c9_group_strips (pat : String) (sub : Handler) (rest : String)
    (r : Request) (w : Response)
    (hend : goHasSuf pat "/" = true)
    (hpath : r.path.data = (goTrimSuf pat "/").data ++ rest.data) :
    ((Mux.new []).Group pat sub []).registrations
        = [(pat, stripPrefixFun (goTrimSuf pat "/") sub)]
    ∧ stripPrefixFun (goTrimSuf pat "/") sub r w = sub { r with path := rest } w := by
  refine ⟨rfl, ?_⟩
  by_cases hb : goTrimSuf pat "/" = ""
  · have h1 : stripPrefixFun (goTrimSuf pat "/") sub = sub := by
      unfold stripPrefixFun
      rw [if_pos hb]
    rw [h1]
    have hpr : r.path = rest := by
      apply str_data_inj
      rw [hpath, hb]
      rfl
    rw [← hpr]
  · have hbd : (goTrimSuf pat "/").data ≠ [] := fun hh => hb (str_data_inj (hh.trans rfl))
    have hpref : goHasPref r.path (goTrimSuf pat "/") = true := by
      unfold goHasPref
      rw [hpath]
      exact listIsPref_append _ _
    have htrim : goTrimPref r.path (goTrimSuf pat "/") = rest := by
      unfold goTrimPref
      rw [if_pos hpref]
      apply str_data_inj
      show (r.path.data.drop (goTrimSuf pat "/").data.length) = rest.data
      rw [hpath]
      exact List.drop_left _ _
    have hlt : rest.data.length < r.path.data.length := by
      rw [hpath, List.length_append]
      have hpos : 0 < (goTrimSuf pat "/").data.length := List.length_pos.mpr hbd
      omega
    have h2 : stripPrefixFun (goTrimSuf pat "/") sub r w
        = if (goTrimPref r.path (goTrimSuf pat "/")).data.length < r.path.data.length
          then sub { r with path := goTrimPref r.path (goTrimSuf pat "/") } w
          else notFound r w := by
      unfold stripPrefixFun
      rw [if_neg hb]
    rw [h2, htrim, if_pos hlt]

/-- Witness for C9: `Group("/api/", sub)` forwards a request for
"/api/widgets" to the sub-handler with path "/widgets". -/
theorem c9_witness :
    ((Mux.new []).Group "/api/" hOK []).registrations
        = [("/api/", stripPrefixFun (goTrimSuf "/api/" "/") hOK)]
    ∧ stripPrefixFun (goTrimSuf "/api/" "/") hOK ⟨"GET", "/api/widgets"⟩ Response.init
        = hOK { Request.mk "GET" "/api/widgets" with path := "/widgets" } Response.init :=
  c9_group_strips "/api/" hOK "/widgets" ⟨"GET", "/api/widgets"⟩ Response.init rfl rfl

/-- Appending strings appends their character lists. -/
theorem str_data_append (a b : String) : (a ++ b).data = a.data ++ b.data := rfl

/-- Claim C6: the adapted handler invokes the configured response function
with exactly the (message, status) extracted via the StatusMsg capability;
with (generic 500 text, 500) when the error lacks the capability; and not
at all — with nothing reaching the sink — when the handler returns nil. -/
theorem c6_err_adapter (eh : ErrorHandler) (h : ErrHandler) (r : Request)
    (w w1 : Response) :
    (∀ e s m, h r w = (w1, some e) → asStatusMsg e = some (s, m) →
        (eh.Err h r w).1 = eh.errFunc w1 m s)
    ∧ (∀ e, h r w = (w1, some e) → asStatusMsg e = none →
        (eh.Err h r w).1 = eh.errFunc w1 "Internal Server Error" 500)
    ∧ (h r w = (w1, none) → eh.Err h r w = (w1, none)) := by
  refine ⟨?_, ?_, ?_⟩
  · intro e st m hh hsm
    unfold ErrorHandler.Err
    rw [hh]
    show (match asStatusMsg e with
        | some sm => eh.errFunc w1 sm.2 sm.1
        | none => eh.errFunc w1 (statusText 500) 500) = eh.errFunc w1 m st
    rw [hsm]
  · intro e hh hsm
    unfold ErrorHandler.Err
    rw [hh]
    show (match asStatusMsg e with
        | some sm => eh.errFunc w1 sm.2 sm.1
        | none => eh.errFunc w1 (statusText 500) 500) = eh.errFunc w1 "Internal Server Error" 500
    rw [hsm]
    rfl
  · intro hh
    unfold ErrorHandler.Err
    rw [hh]

/-- Witness for C6: an adapted handler returning `Error(cause, 403,
"forbidden")` makes the default response function write ("forbidden", 403). -/
theorem c6_witness :
    ((ErrorHandler.mk true httpError).Err
        (returning (Error (GoError.mk "boom") 403 "forbidden")) ⟨"GET", "/"⟩ Response.init).1
      = httpError Response.init "forbidden" 403 :=
  (c6_err_adapter ⟨true, httpError⟩ (returning (Error (GoError.mk "boom") 403 "forbidden"))
      ⟨"GET", "/"⟩ Response.init Response.init).1
    (Error (GoError.mk "boom") 403 "forbidden") 403 "forbidden" rfl rfl

/-- Claim C7: two returned errors with the same StatusMsg outcome (or both
lacking the capability) produce identical client responses — the cause
never reaches the response function; the cause is surfaced only through
the sink, which receives the full error string, and that string contains
the (quoted) description of the cause. -/
theorem c7_cause_not_leaked (eh : ErrorHandler) (r : Request) (w : Response)
    (e1 e2 : GoError) (hsame : asStatusMsg e1 = asStatusMsg e2) :
    (eh.Err (returning e1) r w).1 = (eh.Err (returning e2) r w).1
    ∧ (eh.hasWriter = true → (eh.Err (returning e1) r w).2 = some (goErrorStr e1))
    ∧ (∀ c st m, strContainsStr (goErrorStr (Error c st m)) (goQuote (goErrorStr c))) := by
  refine ⟨?_, ?_, ?_⟩
  · show (match asStatusMsg e1 with
        | some sm => eh.errFunc w sm.2 sm.1
        | none => eh.errFunc w (statusText 500) 500)
      = (match asStatusMsg e2 with
        | some sm => eh.errFunc w sm.2 sm.1
        | none => eh.errFunc w (statusText 500) 500)
    rw [hsame]
  · intro hw
    show (if eh.hasWriter then some (goErrorStr e1) else none) = some (goErrorStr e1)
    rw [hw]
    rfl
  · intro c st m
    refine ⟨("status=" ++ toString st ++ " msg=" ++ goQuote m ++ " err=").data, "\n".data, ?_⟩
    show ("status=" ++ toString st ++ " msg=" ++ goQuote m ++ " err="
        ++ goQuote (goErrorStr c) ++ "\n").data = _
    simp [str_data_append]

/-- Witness for C7: two errors with equal (status, message) but different
causes yield the same client response, and the log line for the first
contains its cause's description. -/
theorem c7_witness :
    (((ErrorHandler.mk true httpError).Err
        (returning (Error (GoError.mk "causeA") 403 "forbidden")) ⟨"GET", "/"⟩ Response.init).1
      = ((ErrorHandler.mk true httpError).Err
        (returning (Error (GoError.mk "causeB") 403 "forbidden")) ⟨"GET", "/"⟩ Response.init).1)
    ∧ ((ErrorHandler.mk true httpError).hasWriter = true →
        ((ErrorHandler.mk true httpError).Err
          (returning (Error (GoError.mk "causeA") 403 "forbidden")) ⟨"GET", "/"⟩ Response.init).2
        = some (goErrorStr (Error (GoError.mk "causeA") 403 "forbidden")))
    ∧ (∀ c st m, strContainsStr (goErrorStr (Error c st m)) (goQuote (goErrorStr c))) :=
  c7_cause_not_leaked ⟨true, httpError⟩ ⟨"GET", "/"⟩ Response.init
    (Error (GoError.mk "causeA") 403 "forbidden")
    (Error (GoError.mk "causeB") 403 "forbidden") rfl

/-- Counterexample for C8: the source constructor `Error` takes one message
string and uses it verbatim — it joins nothing.  The spec-described
variadic constructor applied to the parts ["access", "denied"] yields the
joined message "access denied", which coincides with no `Error` call on
either individual part; the claimed constructor and the source constructor
are therefore not the same function. -/
theorem c8_counterexample :
    NewHandlerError (GoError.mk "boom") 403 ["access", "denied"]
        = Error (GoError.mk "boom") 403 "access denied"
    ∧ NewHandlerError (GoError.mk "boom") 403 ["access", "denied"]
        ≠ Error (GoError.mk "boom") 403 "access"
    ∧ NewHandlerError (GoError.mk "boom") 403 ["access", "denied"]
        ≠ Error (GoError.mk "boom") 403 "denied"
    ∧ asStatusMsg (Error (GoError.mk "boom") 403 "access") = some (403, "access") := by
  refine ⟨?_, ?_, ?_, rfl⟩ <;> decide

/-- Claim C8 (amended): `Error(err, status, msg)` takes a cause, a status
and a single message string; `StatusMsg` later returns exactly that
(status, msg) with the message verbatim, and the cause is never part of
the message (the message is the same whatever the cause is). -/
theorem c8_error_verbatim_msg (c c2 : GoError) (st : Nat) (m : String) :
    asStatusMsg (Error c st m) = some (st, m)
    ∧ asStatusMsg (Error c st m) = asStatusMsg (Error c2 st m) :=
  ⟨rfl, rfl⟩

end mux
